import Mathlib

/-!
Verification of the Task View Derivation Engine of `reacttaskplanner`.

The definitions below are a shallow embedding of the state/derivation logic in
`src/app/screens/HomeScreen.tsx`:
  * the date range `useMemo` (lines 52-75) becomes `dateRange`;
  * the filter/sort `useEffect` (lines 157-212) becomes `derive` (with its
    pieces `relevantDate`, `keepDate`, `retainedTasks`, `sortByRank`);
  * `handleToggleTaskCompletion` (lines 241-252) becomes
    `toggleTaskCompletion` / `handleToggleTaskCompletion`.

Timestamps are modelled as natural numbers of milliseconds; a calendar day is
86400000 consecutive milliseconds, so `Date.setHours(0,0,0,0)` becomes
truncation to a multiple of 86400000 (the model works in a fixed UTC-like
zone; the code uses the local zone, which only shifts every timestamp by a
constant).  JavaScript `Array.prototype.sort` is stable (ES2019), so the
`.sort` call with the priority comparator is embedded as a stable insertion
sort by the comparator's key.
-/

namespace TaskPlanner

/-- Modelled from the spec: the `Task` record of §3 (its declaration lives in
`src/app/types`, which is not included under `src/`; the fields match both the
spec's data model and every use in `HomeScreen.tsx`).  `priority` is kept as a
raw string because the sort logic must handle values outside the enumeration. -/
structure Task where
  id : String
  title : String
  description : Option String
  createdAt : Nat
  dueDate : Option Nat
  priority : String
  category : Option String
  completed : Bool
deriving DecidableEq, Repr

/-- The two values of the `selectedFilterType` state (HomeScreen.tsx line 34). -/
inductive FilterType where
  | createdAt
  | dueDate
deriving DecidableEq, Repr

/-- `startOfDay.setHours(0, 0, 0, 0)` (HomeScreen.tsx lines 163-164, 180):
truncate a millisecond timestamp to the start of its day. -/
def startOfDay (ts : Nat) : Nat := ts / 86400000 * 86400000

/-- `endOfDay.setHours(23, 59, 59, 999)` (HomeScreen.tsx lines 166-167). -/
def endOfDay (ts : Nat) : Nat := startOfDay ts + 86399999

/-- The calendar day a timestamp falls on. -/
def dayOf (ts : Nat) : Nat := ts / 86400000

/-- HomeScreen.tsx lines 175-177:
`selectedFilterType === 'dueDate' && task.dueDate ? task.dueDate : task.createdAt`. -/
def relevantDate (filterType : FilterType) (task : Task) : Nat :=
  match filterType, task.dueDate with
  | FilterType.dueDate, some d => d
  | _, _ => task.createdAt

/-- The body of the date filter (HomeScreen.tsx lines 173-183): normalize the
task's relevant timestamp to its day start and keep the task iff it lies in
`[startTimestamp, endTimestamp]` of the selected date. -/
def keepDate (currentDate : Nat) (filterType : FilterType) (task : Task) : Bool :=
  let startTimestamp := startOfDay currentDate
  let endTimestamp := endOfDay currentDate
  let taskTimestamp := startOfDay (relevantDate filterType task)
  decide (startTimestamp ≤ taskTimestamp ∧ taskTimestamp ≤ endTimestamp)

/-- JavaScript truthiness of the `activeCategory : string | null` state:
`null` and the empty string are falsy (HomeScreen.tsx line 186 `if (activeCategory)`). -/
def categoryTruthy : Option String → Bool
  | none => false
  | some s => decide (s ≠ "")

/-- The `priorityOrder` object literal (HomeScreen.tsx lines 202-207);
indexing with a key that is absent yields `undefined`, i.e. `none`. -/
def priorityOrder : String → Option Nat
  | "crucial" => some 0
  | "high" => some 1
  | "normal" => some 2
  | "optional" => some 3
  | _ => none

/-- JavaScript `x || d` for `x : number | undefined`: `undefined` and `0` are
falsy, so both fall through to the default. -/
def jsOrDefault : Option Nat → Nat → Nat
  | none, d => d
  | some v, d => if v = 0 then d else v

/-- `priorityOrder[task.priority] || 2` (HomeScreen.tsx line 208).  Note that
`priorityOrder['crucial']` is `0`, which is falsy in JavaScript, so a
`crucial` task actually gets rank 2, not 0. -/
def taskRank (task : Task) : Nat := jsOrDefault (priorityOrder task.priority) 2

/-- Stable insertion step for the priority sort: a task is placed before the
first already-sorted task of greater-or-equal rank. -/
def insertByRank (t : Task) : List Task → List Task
  | [] => [t]
  | u :: us => if taskRank t ≤ taskRank u then t :: u :: us else u :: insertByRank t us

/-- `dateFiltered.sort(comparator)` (HomeScreen.tsx lines 201-209): the ES2019
stable sort with comparator `(a, b) => rank(a) - rank(b)`, embedded as a
stable insertion sort on the comparator's key. -/
def sortByRank : List Task → List Task
  | [] => []
  | t :: ts => insertByRank t (sortByRank ts)

/-- The retained (filtered, not yet sorted) tasks: the date filter
(HomeScreen.tsx lines 173-183) followed by the category filter
(lines 186-189), which runs only when `activeCategory` is truthy. -/
def retainedTasks (tasks : List Task) (currentDate : Nat) (filterType : FilterType)
    (activeCategory : Option String) : List Task :=
  let dateFiltered := tasks.filter (keepDate currentDate filterType)
  if categoryTruthy activeCategory then
    dateFiltered.filter (fun task => decide (task.category = activeCategory))
  else
    dateFiltered

/-- The whole filter/sort `useEffect` body (HomeScreen.tsx lines 157-212) as a
pure function of its dependencies: the early return for an empty collection
(lines 158-161), the date filter, the category filter and the priority sort. -/
def derive (tasks : List Task) (currentDate : Nat) (filterType : FilterType)
    (activeCategory : Option String) : List Task :=
  if tasks.length = 0 then []
  else sortByRank (retainedTasks tasks currentDate filterType activeCategory)

/-- The in-memory update of `handleToggleTaskCompletion`
(HomeScreen.tsx lines 243-245): flip `completed` on every task whose id
matches, leave all others untouched. -/
def toggleTaskCompletion (tasks : List Task) (taskId : String) : List Task :=
  tasks.map (fun task =>
    if task.id = taskId then { task with completed := !task.completed } else task)

/-- Outcome of `handleToggleTaskCompletion`: the tasks state after the call
and whether a save failure was reported (the `catch` branch's alert). -/
structure ToggleResult where
  tasks : List Task
  saveFailureReported : Bool
deriving DecidableEq, Repr

/-- `handleToggleTaskCompletion` (HomeScreen.tsx lines 241-252): `setTasks`
runs before `await saveTasks`, and the `catch` branch only reports the error,
so the in-memory state is the updated collection whether or not the save
succeeds; `saveOk` says whether `storageService.saveTasks` succeeded. -/
def handleToggleTaskCompletion (tasks : List Task) (taskId : String) (saveOk : Bool) :
    ToggleResult :=
  let updatedTasks := toggleTaskCompletion tasks taskId
  { tasks := updatedTasks, saveFailureReported := !saveOk }

/-- A `new Date(year, month, day)` value at day granularity; `month` is
0-indexed as in JavaScript. -/
structure SimpleDate where
  year : Nat
  month : Nat
  day : Nat
deriving DecidableEq, Repr

/-- Whether `year` is a leap year (the rule JavaScript's `Date` implements). -/
def isLeapYear (year : Nat) : Bool :=
  (year % 4 = 0 && year % 100 ≠ 0) || year % 400 = 0

/-- `new Date(year, month + 1, 0).getDate()` (HomeScreen.tsx line 62): the
number of days of 0-indexed `month`. -/
def daysInMonth (year month : Nat) : Nat :=
  if month = 0 ∨ month = 2 ∨ month = 4 ∨ month = 6 ∨ month = 7 ∨ month = 9 ∨ month = 11 then 31
  else if month = 1 then (if isLeapYear year then 29 else 28)
  else 30

/-- The `dateRange` `useMemo` (HomeScreen.tsx lines 52-75): every day of the
current month followed by the first 15 days of the next month, with December
rolling over to January of the next year. -/
def dateRange (currentYear currentMonth : Nat) : List SimpleDate :=
  let lastDay := daysInMonth currentYear currentMonth
  let monthDates := (List.range lastDay).map
    (fun i => SimpleDate.mk currentYear currentMonth (i + 1))
  let nextMonth := if currentMonth = 11 then 0 else currentMonth + 1
  let nextMonthYear := if currentMonth = 11 then currentYear + 1 else currentYear
  let nextDates := (List.range 15).map
    (fun i => SimpleDate.mk nextMonthYear nextMonth (i + 1))
  monthDates ++ nextDates

/-- Chronological strict order on `SimpleDate`. -/
def dateLt (a b : SimpleDate) : Prop :=
  a.year < b.year ∨
    (a.year = b.year ∧ (a.month < b.month ∨ (a.month = b.month ∧ a.day < b.day)))

/-! ### Helper lemmas -/

theorem keepDate_iff (currentDate : Nat) (f : FilterType) (t : Task) :
    keepDate currentDate f t = true ↔ dayOf (relevantDate f t) = dayOf currentDate := by
  simp only [keepDate, endOfDay, startOfDay, dayOf, decide_eq_true_eq]
  omega

theorem insertByRank_perm (t : Task) (l : List Task) : (insertByRank t l).Perm (t :: l) := by
  induction l with
  | nil => exact List.Perm.refl _
  | cons u us ih =>
    unfold insertByRank
    by_cases h : taskRank t ≤ taskRank u
    · rw [if_pos h]
    · rw [if_neg h]
      exact (ih.cons u).trans (List.Perm.swap t u us)

theorem sortByRank_perm (l : List Task) : (sortByRank l).Perm l := by
  induction l with
  | nil => exact List.Perm.refl _
  | cons t ts ih => exact (insertByRank_perm t (sortByRank ts)).trans (ih.cons t)

theorem insertByRank_filter (t : Task) (l : List Task) (k : Nat) :
    (insertByRank t l).filter (fun u => decide (taskRank u = k)) =
      (t :: l).filter (fun u => decide (taskRank u = k)) := by
  induction l with
  | nil => rfl
  | cons u us ih =>
    unfold insertByRank
    by_cases h : taskRank t ≤ taskRank u
    · rw [if_pos h]
    · rw [if_neg h]
      simp only [List.filter_cons, ih]
      by_cases ht : taskRank t = k <;> by_cases hu : taskRank u = k
      · omega
      · simp [ht, hu]
      · simp [ht, hu]
      · simp [ht, hu]

theorem sortByRank_filter (l : List Task) (k : Nat) :
    (sortByRank l).filter (fun u => decide (taskRank u = k)) =
      l.filter (fun u => decide (taskRank u = k)) := by
  induction l with
  | nil => rfl
  | cons t ts ih =>
    show (insertByRank t (sortByRank ts)).filter _ = _
    rw [insertByRank_filter]
    simp only [List.filter_cons, ih]

theorem retainedTasks_eq_filter (tasks : List Task) (d : Nat) (f : FilterType)
    (c : Option String) :
    retainedTasks tasks d f c =
      tasks.filter (fun t =>
        keepDate d f t && (!categoryTruthy c || decide (t.category = c))) := by
  unfold retainedTasks
  by_cases h : categoryTruthy c = true
  · rw [if_pos h, List.filter_filter]
    simp only [h, Bool.not_true, Bool.false_or]
    rw [List.filter_congr]
    intro t _
    rw [Bool.and_comm]
  · rw [if_neg h]
    have h' : categoryTruthy c = false := by
      cases hc : categoryTruthy c
      · rfl
      · exact absurd hc h
    simp only [h', Bool.not_false, Bool.true_or, Bool.and_true]

theorem mem_derive_iff (tasks : List Task) (d : Nat) (f : FilterType) (c : Option String)
    (t : Task) :
    t ∈ derive tasks d f c ↔ t ∈ retainedTasks tasks d f c := by
  unfold derive
  by_cases h : tasks.length = 0
  · rw [if_pos h]
    have he : tasks = [] := List.length_eq_zero.mp h
    subst he
    simp [retainedTasks]
  · rw [if_neg h]
    exact (sortByRank_perm _).mem_iff

theorem mem_derive_none_iff (tasks : List Task) (d : Nat) (f : FilterType) (t : Task)
    (ht : t ∈ tasks) :
    t ∈ derive tasks d f none ↔ dayOf (relevantDate f t) = dayOf d := by
  rw [mem_derive_iff]
  have hcat : categoryTruthy (none : Option String) = false := rfl
  unfold retainedTasks
  rw [hcat]
  simp only [Bool.false_eq_true, if_false, List.mem_filter, keepDate_iff]
  exact ⟨fun hx => hx.2, fun hx => ⟨ht, hx⟩⟩

theorem daysInMonth_pos (y m : Nat) : 1 ≤ daysInMonth y m := by
  unfold daysInMonth
  split
  · omega
  · split
    · split <;> omega
    · omega

/-! ### Concrete inputs used by scenario evaluations and witnesses -/

/-- The three tasks of Scenario A (spec §8): `1710028800000` is
2024-03-10T00:00:00Z and `1710115200000` is 2024-03-11T00:00:00Z. -/
def scenarioATasks : List Task :=
  [{ id := "1", title := "", description := none, createdAt := 1710028800000,
     dueDate := none, priority := "high", category := none, completed := false },
   { id := "2", title := "", description := none, createdAt := 1710028800000,
     dueDate := none, priority := "crucial", category := none, completed := false },
   { id := "3", title := "", description := none, createdAt := 1710115200000,
     dueDate := none, priority := "normal", category := none, completed := false }]

/-- A sample task used to instantiate witnesses. -/
def sampleTask : Task :=
  { id := "a", title := "t", description := none, createdAt := 5, dueDate := none,
    priority := "normal", category := some "work", completed := false }

/-- A task without a category, used for the C6 counterexample (its
`createdAt` is day 0, the day it is filtered on). -/
def noCategoryTask : Task :=
  { id := "n", title := "", description := none, createdAt := 0, dueDate := none,
    priority := "normal", category := none, completed := false }

/-! ### Claims -/

/-- C1: the claim says the pipeline ranks priorities crucial=0, high=1,
normal=2, optional=3 and that Scenario A yields the output `[2, 1]`.  The
code contradicts its own comment "crucial first, optional last": in
`priorityOrder[a.priority] || 2` the rank `0` of `'crucial'` is falsy, so a
crucial task is ranked 2 and Scenario A actually yields `[1, 2]`.  This
theorem evaluates the embedded code at the failing input. -/
theorem c1_scenarioA_actual_output :
    (derive scenarioATasks 1710028800000 FilterType.createdAt none).map Task.id = ["1", "2"] ∧
    scenarioATasks.map taskRank = [1, 2, 2] := by
  decide

/-- C2: a task of the collection is in the output of `derive` with no
category filter iff its effective comparison timestamp (dueDate when the
filter field is dueDate and the task has one, otherwise createdAt) falls on
the selected day. -/
theorem c2_derive_day_membership (tasks : List Task) (d : Nat) (f : FilterType) (t : Task)
    (ht : t ∈ tasks) :
    t ∈ derive tasks d f none ↔ dayOf (relevantDate f t) = dayOf d :=
  mem_derive_none_iff tasks d f t ht

theorem c2_derive_day_membership_witness :
    sampleTask ∈ derive [sampleTask] 5 FilterType.createdAt none ↔
      dayOf (relevantDate FilterType.createdAt sampleTask) = dayOf 5 :=
  c2_derive_day_membership [sampleTask] 5 FilterType.createdAt sampleTask (by decide)

/-- C3: for every reference year and (0-indexed) month, the date range has
exactly `daysInMonth + 15` entries, is strictly ascending chronologically,
begins at day 1 of the current month, contains every day of the current
month, and contains the first 15 days of the next month, December rolling
over to January of the following year. -/
theorem c3_dateRange_spec (y m : Nat) :
    (dateRange y m).length = daysInMonth y m + 15 ∧
    (dateRange y m).Pairwise dateLt ∧
    (dateRange y m).head? = some (SimpleDate.mk y m 1) ∧
    (∀ d, 1 ≤ d → d ≤ daysInMonth y m → SimpleDate.mk y m d ∈ dateRange y m) ∧
    (∀ d, 1 ≤ d → d ≤ 15 →
      SimpleDate.mk (if m = 11 then y + 1 else y) (if m = 11 then 0 else m + 1) d ∈
        dateRange y m) := by
  refine ⟨?_, ?_, ?_, ?_, ?_⟩
  · simp [dateRange]
  · simp only [dateRange]
    rw [List.pairwise_append]
    refine ⟨?_, ?_, ?_⟩
    · exact (List.pairwise_lt_range _).map _
        (fun a b hab => Or.inr ⟨rfl, Or.inr ⟨rfl, Nat.succ_lt_succ hab⟩⟩)
    · exact (List.pairwise_lt_range _).map _
        (fun a b hab => Or.inr ⟨rfl, Or.inr ⟨rfl, Nat.succ_lt_succ hab⟩⟩)
    · intro a ha b hb
      obtain ⟨i, _, rfl⟩ := List.mem_map.mp ha
      obtain ⟨j, _, rfl⟩ := List.mem_map.mp hb
      by_cases hm : m = 11
      · simp only [if_pos hm]
        exact Or.inl (Nat.lt_succ_self y)
      · simp only [if_neg hm]
        exact Or.inr ⟨rfl, Or.inl (Nat.lt_succ_self m)⟩
  · have h1 : 0 < daysInMonth y m := daysInMonth_pos y m
    simp only [dateRange]
    rw [List.head?_eq_getElem?, List.getElem?_append,
      if_pos (by simpa using h1), List.getElem?_map, List.getElem?_range h1]
    rfl
  · intro d hd1 hd2
    simp only [dateRange, List.mem_append]
    refine Or.inl (List.mem_map.mpr ⟨d - 1, List.mem_range.mpr (by omega), ?_⟩)
    have hde : d - 1 + 1 = d := by omega
    rw [hde]
  · intro d hd1 hd2
    simp only [dateRange, List.mem_append]
    refine Or.inr (List.mem_map.mpr ⟨d - 1, List.mem_range.mpr (by omega), ?_⟩)
    have hde : d - 1 + 1 = d := by omega
    rw [hde]

theorem c3_dateRange_spec_witness :
    (dateRange 2024 11).length = daysInMonth 2024 11 + 15 ∧
    SimpleDate.mk 2025 0 15 ∈ dateRange 2024 11 := by
  refine ⟨(c3_dateRange_spec 2024 11).1, ?_⟩
  have h := (c3_dateRange_spec 2024 11).2.2.2.2 15 (by decide) (by decide)
  simpa using h

/-- C4: when `saveTasks` fails after `toggleTaskCompletion` has applied the
in-memory flip, the flipped task stays in the in-memory collection (no
rollback) and the save failure is reported to the caller. -/
theorem c4_save_failure_no_rollback (tasks : List Task) (taskId : String) (t : Task)
    (ht : t ∈ tasks) (hid : t.id = taskId) :
    ({ t with completed := !t.completed } : Task) ∈
      (handleToggleTaskCompletion tasks taskId false).tasks ∧
    (handleToggleTaskCompletion tasks taskId false).saveFailureReported = true := by
  constructor
  · show _ ∈ toggleTaskCompletion tasks taskId
    unfold toggleTaskCompletion
    exact List.mem_map.mpr ⟨t, ht, by rw [if_pos hid]⟩
  · rfl

theorem c4_save_failure_no_rollback_witness :
    ({ sampleTask with completed := !sampleTask.completed } : Task) ∈
      (handleToggleTaskCompletion [sampleTask] "a" false).tasks ∧
    (handleToggleTaskCompletion [sampleTask] "a" false).saveFailureReported = true :=
  c4_save_failure_no_rollback [sampleTask] "a" sampleTask (by decide) (by decide)

/-- C5: a task without a `dueDate` is included under due-date filtering
whenever the selected date falls on its `createdAt` day (the comparison
falls back to `createdAt`). -/
theorem c5_dueDate_fallback (tasks : List Task) (d : Nat) (t : Task) (ht : t ∈ tasks)
    (hdue : t.dueDate = none) (hday : dayOf t.createdAt = dayOf d) :
    t ∈ derive tasks d FilterType.dueDate none := by
  rw [mem_derive_none_iff tasks d FilterType.dueDate t ht]
  have hrel : relevantDate FilterType.dueDate t = t.createdAt := by
    unfold relevantDate
    rw [hdue]
  rw [hrel]
  exact hday

theorem c5_dueDate_fallback_witness :
    sampleTask ∈ derive [sampleTask] 5 FilterType.dueDate none :=
  c5_dueDate_fallback [sampleTask] 5 sampleTask (by decide) (by decide) (by decide)

/-- C6 counterexample: the claim quantifies over every non-null category
filter, but the code guards the category filter with JavaScript truthiness
(`if (activeCategory)`), so the non-null filter `""` is skipped: a task with
no category is kept even though its category differs from the filter. -/
theorem c6_empty_string_counterexample :
    noCategoryTask ∈ derive [noCategoryTask] 0 FilterType.createdAt (some "") ∧
    ¬ noCategoryTask.category = some "" := by
  decide

/-- C6 (amended): for every non-null, non-empty category filter `c`, every
task in the derived output has category exactly `c`; in particular a task
with no category is excluded whenever such a filter is active. -/
theorem c6_category_filter_exact (tasks : List Task) (d : Nat) (f : FilterType)
    (c : String) (hc : c ≠ "") :
    ∀ t ∈ derive tasks d f (some c), t.category = some c := by
  intro t htm
  rw [mem_derive_iff] at htm
  unfold retainedTasks at htm
  have hct : categoryTruthy (some c) = true := by
    simp [categoryTruthy, hc]
  rw [if_pos hct, List.mem_filter] at htm
  simpa using htm.2

theorem c6_category_filter_exact_witness :
    sampleTask.category = some "work" :=
  c6_category_filter_exact [sampleTask] 5 FilterType.createdAt "work" (by decide)
    sampleTask (by decide)

/-- C7: toggling an id that is absent from the collection leaves the
collection unchanged and completes as a no-op success (no failure is
reported when the save succeeds). -/
theorem c7_toggle_absent_noop (tasks : List Task) (taskId : String)
    (h : ∀ t ∈ tasks, t.id ≠ taskId) :
    (handleToggleTaskCompletion tasks taskId true).tasks = tasks ∧
    (handleToggleTaskCompletion tasks taskId true).saveFailureReported = false := by
  constructor
  · show toggleTaskCompletion tasks taskId = tasks
    unfold toggleTaskCompletion
    have hmap : tasks.map (fun task =>
        if task.id = taskId then { task with completed := !task.completed } else task) =
        tasks.map id :=
      List.map_congr_left (fun a ha => by rw [if_neg (h a ha)]; rfl)
    rw [hmap, List.map_id]
  · rfl

theorem c7_toggle_absent_noop_witness :
    (handleToggleTaskCompletion [sampleTask] "zzz" true).tasks = [sampleTask] ∧
    (handleToggleTaskCompletion [sampleTask] "zzz" true).saveFailureReported = false :=
  c7_toggle_absent_noop [sampleTask] "zzz" (by decide)

/-- C8: the priority sort is stable: for every rank `k`, the rank-`k`
subsequence of the derived output equals the rank-`k` subsequence of the
retained tasks, which are themselves a filter of the input collection (so
equal-rank tasks keep their relative order from the input). -/
theorem c8_sort_stability (tasks : List Task) (d : Nat) (f : FilterType)
    (c : Option String) (k : Nat) :
    (derive tasks d f c).filter (fun t => decide (taskRank t = k)) =
      (tasks.filter (fun t =>
        keepDate d f t && (!categoryTruthy c || decide (t.category = c)))).filter
        (fun t => decide (taskRank t = k)) := by
  rw [← retainedTasks_eq_filter]
  unfold derive
  by_cases h : tasks.length = 0
  · rw [if_pos h]
    have he : tasks = [] := List.length_eq_zero.mp h
    subst he
    simp [retainedTasks]
  · rw [if_neg h, sortByRank_filter]

/-- C9: the derivation is a pure function of the task collection, the
selected date, the date-field selector and the category filter: two calls
with identical inputs produce identical outputs. -/
theorem c9_derive_pure (tasks : List Task) (d : Nat) (f : FilterType)
    (c : Option String) :
    derive tasks d f c = derive tasks d f c := rfl

/-- C10: `toggleTaskCompletion` preserves the collection's length and order,
and position by position it changes only the `completed` field of tasks with
the matching id, leaving every field of every other task untouched. -/
theorem c10_toggle_frame (tasks : List Task) (taskId : String) :
    (toggleTaskCompletion tasks taskId).length = tasks.length ∧
    List.Forall₂ (fun t u =>
      u.id = t.id ∧ u.title = t.title ∧ u.description = t.description ∧
      u.createdAt = t.createdAt ∧ u.dueDate = t.dueDate ∧ u.priority = t.priority ∧
      u.category = t.category ∧
      (t.id = taskId → u.completed = !t.completed) ∧
      (t.id ≠ taskId → u = t)) tasks (toggleTaskCompletion tasks taskId) := by
  constructor
  · simp [toggleTaskCompletion]
  · induction tasks with
    | nil => exact List.Forall₂.nil
    | cons t ts ih =>
      refine List.Forall₂.cons ?_ ih
      by_cases h : t.id = taskId <;> simp [toggleTaskCompletion, h]

theorem c10_toggle_frame_witness :
    (toggleTaskCompletion [sampleTask] "a").length = 1 := by
  have h := (c10_toggle_frame [sampleTask] "a").1
  simpa using h

end TaskPlanner
